import Mathlib

/-!
Shallow embedding of the multi-tenant analytics application: webhook
ingestion (orders / customers / products), tenant-scoped dashboard
aggregation queries, the magic-link authentication flow, and tenant
resolution from cookies.  Definitions are translated from the TypeScript
sources; money amounts are modelled as exact rationals and timestamps as
integer milliseconds (calendar arithmetic is done in UTC, matching the
SQL `DATE` / `date_trunc` day truncation used by the queries).
-/

/-- Milliseconds per calendar day. -/
def msPerDay : Nat := 86400000

/-- Calendar day number of a millisecond timestamp; this is the day
grouping performed by SQL `DATE(created_at)` / `date_trunc('day', ...)`. -/
def dayOf (t : Nat) : Nat := t / msPerDay

/-- JS `setHours(23, 59, 59, 999)`: the last millisecond of the calendar
day containing `t`, used to make the `to` boundary inclusive. -/
def endOfDay (t : Nat) : Nat := dayOf t * msPerDay + (msPerDay - 1)

/-- JS `String.prototype.toLowerCase()` as the sources use it (shop
domains and email addresses): lowercase each character;
`Char.toLower` lowers exactly the ASCII uppercase range. -/
def jsToLower (s : String) : String := ⟨s.data.map Char.toLower⟩

/-- JS `String.prototype.trim()`: strip leading and trailing
whitespace. -/
def jsTrim (s : String) : String :=
  ⟨(((s.data.dropWhile Char.isWhitespace).reverse).dropWhile Char.isWhitespace).reverse⟩

/-- JS `String.prototype.split(sep)` for a one-character separator, as
used on cookie headers: `"" .split(sep)` is `[""]`, separators at the
ends produce empty fields. -/
def jsSplit (s : String) (sep : Char) : List String :=
  (s.data.splitOn sep).map fun l => ⟨l⟩

/-- A persisted order row (`orders` table, as written by the order
webhook handlers and read by the dashboard queries). -/
structure Order where
  tenant_id : String
  shopify_id : String
  customer_id : Option String
  total_price : Rat
  financial_status : Option String
  created_at : Nat
deriving Repr, DecidableEq

/-- A persisted customer row (`customers` table). -/
structure Customer where
  tenant_id : String
  shopify_id : String
  email : Option String
  first_name : Option String
  last_name : Option String
deriving Repr, DecidableEq

/-- A persisted product row (`products` table); only the fields the
embedded code touches. -/
structure Product where
  tenant_id : String
  shopify_id : String
  title : Option String
  price : Rat
deriving Repr, DecidableEq

/-- The relational store the webhook handlers write and the dashboard
reads. -/
structure Store where
  orders : List Order
  customers : List Customer
  products : List Product
deriving Repr, DecidableEq

/-- `WHERE tenant_id = t AND created_at >= fromStart AND created_at <= toEnd`:
the order filter shared by the dashboard loader's series, count and
revenue queries (`app/routes/dashboard._index.tsx`). -/
def ordersInRange (t : String) (fromStart toEnd : Nat) (s : Store) : List Order :=
  s.orders.filter fun o =>
    decide (o.tenant_id = t ∧ fromStart ≤ o.created_at ∧ o.created_at ≤ toEnd)

/-- `prisma.customer.count({ where: { tenant_id } })`: all-time customer
count for the tenant. -/
def dashTotalCustomers (t : String) (s : Store) : Nat :=
  (s.customers.filter fun c => decide (c.tenant_id = t)).length

/-- `prisma.order.count` over the tenant / date-range filter. -/
def dashOrdersCount (t : String) (fromStart toEnd : Nat) (s : Store) : Nat :=
  (ordersInRange t fromStart toEnd s).length

/-- `SUM(total_price)` over a list of order rows. -/
def sumPrices (l : List Order) : Rat :=
  (l.map Order.total_price).sum

/-- `prisma.order.aggregate({ _sum: { total_price } })` over the tenant /
date-range filter. -/
def dashRevenue (t : String) (fromStart toEnd : Nat) (s : Store) : Rat :=
  sumPrices (ordersInRange t fromStart toEnd s)

/-- `ordersInRangeAgg ? totalRevenueInRange / Math.max(ordersInRangeAgg, 1) : 0`
from the dashboard loader. -/
def dashAvgOrderValue (t : String) (fromStart toEnd : Nat) (s : Store) : Rat :=
  let n := dashOrdersCount t fromStart toEnd s
  if n ≠ 0 then dashRevenue t fromStart toEnd s / (max n 1 : Nat) else 0

/-- One row of the per-day series: `{date, orders, revenue}` with the date
as a day number. -/
structure SeriesRow where
  date : Nat
  orders : Nat
  revenue : Rat
deriving Repr, DecidableEq

/-- The distinct days of a list of orders, ascending: `GROUP BY
DATE(created_at) ORDER BY date`. -/
def groupDays (l : List Order) : List Nat :=
  List.insertionSort (fun a b => a ≤ b) ((l.map fun o => dayOf o.created_at).dedup)

/-- The orders of `l` whose `created_at` falls on day `d`. -/
def onDay (d : Nat) (l : List Order) : List Order :=
  l.filter fun o => decide (dayOf o.created_at = d)

/-- The grouped per-day series rows of a list of orders:
`SELECT DATE(created_at), COUNT(*), SUM(total_price) ... GROUP BY
DATE(created_at) ORDER BY date`.  Days with no orders produce no row. -/
def seriesOf (l : List Order) : List SeriesRow :=
  (groupDays l).map fun d => ⟨d, (onDay d l).length, sumPrices (onDay d l)⟩

/-- The dashboard loader's raw series query: grouped rows over the
tenant / date-range filter, with no gap filling. -/
def dashSeries (t : String) (fromStart toEnd : Nat) (s : Store) : List SeriesRow :=
  seriesOf (ordersInRange t fromStart toEnd s)

/-- One row of the dashboard's top-customers query. -/
structure TopRow where
  customer_id : Option String
  email : Option String
  name : String
  spend : Rat
deriving Repr, DecidableEq

/-- The `LEFT JOIN customers c ON c.tenant_id = o.tenant_id AND
c.shopify_id = o.customer_id` match condition (SQL `NULL = x` is not
true, hence the `some`). -/
def joinMatch (c : Customer) (o : Order) : Bool :=
  decide (c.tenant_id = o.tenant_id ∧ some c.shopify_id = o.customer_id)

/-- The customer row (if any) the LEFT JOIN pairs with an order.  The
(tenant_id, shopify_id) key is unique, so the first match is the match. -/
def findJoin (cs : List Customer) (o : Order) : Option Customer :=
  cs.find? fun c => joinMatch c o

/-- `COALESCE(c.first_name,'') || ' ' || COALESCE(c.last_name,'')`. -/
def displayName (c : Customer) : String :=
  c.first_name.getD "" ++ " " ++ c.last_name.getD ""

/-- The `GROUP BY 1,2,3` key of the top-customers query: customer
identifier, email and display name.  An order with no joined customer
row groups under SQL NULLs, whose display name coalesces to a single
space. -/
structure TopKey where
  customer_id : Option String
  email : Option String
  name : String
deriving Repr, DecidableEq

/-- The grouping key assigned to an order by the LEFT JOIN. -/
def topKeyOf (cs : List Customer) (o : Order) : TopKey :=
  match findJoin cs o with
  | some c => ⟨some c.shopify_id, c.email, displayName c⟩
  | none => ⟨none, none, " "⟩

/-- `GROUP BY` of the top-customers query: one row per distinct key, with
the summed spend of its orders.  Keys are listed in order of first
occurrence (SQL leaves the pre-sort order unspecified; a concrete order
must be picked to stay executable). -/
def groupTop (keyOf : Order → TopKey) (l : List Order) : List TopRow :=
  ((l.map keyOf).dedup).map fun k =>
    ⟨k.customer_id, k.email, k.name, sumPrices (l.filter fun o => decide (keyOf o = k))⟩

/-- `ORDER BY spend DESC`: the comparison of the top-customers query.
The SQL names no secondary sort key. -/
def spendGE (a b : TopRow) : Prop := b.spend ≤ a.spend

instance : DecidableRel spendGE := fun a b =>
  inferInstanceAs (Decidable (b.spend ≤ a.spend))

instance : IsTotal TopRow spendGE := ⟨fun a b => le_total b.spend a.spend⟩

instance : IsTrans TopRow spendGE := ⟨fun _ _ _ hab hbc => le_trans hbc hab⟩

/-- The dashboard loader's top-5-customers query: group the in-range
orders of the tenant by joined customer, sort by spend descending,
`LIMIT 5`.  The sort is a stable insertion sort, standing in for the
unspecified tie order of `ORDER BY spend DESC`. -/
def dashTop (t : String) (fromStart toEnd : Nat) (s : Store) : List TopRow :=
  (List.insertionSort spendGE
    (groupTop (topKeyOf s.customers) (ordersInRange t fromStart toEnd s))).take 5

/-- `SELECT DISTINCT tenant_id FROM orders UNION ... products UNION
... customers`, then JS `.sort()`. -/
def tenantList (s : Store) : List String :=
  List.insertionSort (fun a b => a ≤ b)
    (((s.orders.map Order.tenant_id) ++ (s.products.map Product.tenant_id)
      ++ (s.customers.map Customer.tenant_id)).dedup)

/-- `const selectedTenant = tenant ?? tenants[0] ?? ""` from the
dashboard loader: the query parameter if present, else the first known
tenant, else the empty string.  No error path exists. -/
def dashSelectedTenant (tenantParam : Option String) (s : Store) : String :=
  tenantParam.getD ((tenantList s).headD "")

/- ===== utils/data.server.ts (getBusinessData) series pipeline ===== -/

/-- The JS `Map` built in `processSeriesData` from the grouped SQL rows,
keyed by day; `Map.set` overwrites, so lookup returns the last entry
with the key. -/
def seriesMapGet (m : List (Nat × Nat × Rat)) (d : Nat) : Option (Nat × Rat) :=
  (m.reverse.find? fun e => decide (e.1 = d)).map Prod.snd

/-- The row `processSeriesData` pushes for one day: the aggregate from
the map when present (`existingData ? existingData.orders : 0`), zero
otherwise. -/
def fillRow (m : List (Nat × Nat × Rat)) (current : Nat) : SeriesRow :=
  let e := seriesMapGet m (dayOf current)
  ⟨dayOf current, (e.map Prod.fst).getD 0, (e.map Prod.snd).getD 0⟩

/-- The `while (currentDate <= endDate)` loop of `processSeriesData`:
one output row per day step, then advancing one day
(`currentDate.setDate(currentDate.getDate() + 1)`). -/
def processLoop (m : List (Nat × Nat × Rat)) (current endDate : Nat) : List SeriesRow :=
  if current ≤ endDate then
    fillRow m current :: processLoop m (current + msPerDay) endDate
  else []
termination_by endDate + 1 - current
decreasing_by simp only [msPerDay]; omega

/-- `processSeriesData(seriesData, from, to)`: fill the inclusive day
range with the grouped rows, zero for absent days. -/
def processSeriesData (seriesData : List SeriesRow) (fromDate toDate : Nat) : List SeriesRow :=
  processLoop (seriesData.map fun r => (r.date, r.orders, r.revenue)) fromDate toDate

/-- The series part of `getBusinessData(from, to, tenantId)`: the grouped
SQL series over `[fromDate, endOfDay toDate]` for the tenant, passed
through `processSeriesData`. -/
def getBusinessSeries (fromDate toDate : Nat) (t : String) (s : Store) : List SeriesRow :=
  processSeriesData (seriesOf (ordersInRange t fromDate (endOfDay toDate) s))
    fromDate (endOfDay toDate)

/- ===== tenant.server.ts: getTenantId ===== -/

/-- `cookieHeader?.split(';').map(c => { const [key, value] =
c.trim().split('='); return [key, value]; })`: the cookie entries a
request header parses to.  A part with no `=` yields an absent value
(JS `undefined`). -/
def cookieEntries (header : Option String) : List (String × Option String) :=
  match header with
  | none => []
  | some hs =>
    (jsSplit hs ';').map fun c =>
      ((jsSplit (jsTrim c) '=').headD "", (jsSplit (jsTrim c) '=')[1]?)

/-- JS `Map.get`: the value of the last entry with the key, if any. -/
def cookieGet (entries : List (String × Option String)) (k : String) :
    Option (Option String) :=
  (entries.reverse.find? fun e => decide (e.1 = k)).map Prod.snd

/-- The tenant-not-selected error message thrown by `getTenantId`. -/
def noTenantMsg : String := "Tenant ID not found - please select a store first"

/-- `getTenantId(request)`: read the `tenant_id` cookie; `if (!tenantId)
throw ...` treats an absent entry, an absent value and the empty string
alike (JS falsiness). -/
def getTenantId (header : Option String) : Except String String :=
  match cookieGet (cookieEntries header) "tenant_id" with
  | some (some v) => if v = "" then .error noTenantMsg else .ok v
  | _ => .error noTenantMsg

/- ===== webhook handlers ===== -/

/-- `payload.customer` of an order webhook: an object whose `id` field
may be absent. -/
structure OrderCustomerRef where
  id : Option Int
deriving Repr, DecidableEq

/-- The order webhook payload fields the handlers read.  `total_price`
arrives as a decimal string; `parseFloat` / `Number` of it is modelled
as the rational it denotes, absent when the field is missing. -/
structure OrderPayload where
  id : Int
  customer : Option OrderCustomerRef
  total_price : Option Rat
  financial_status : Option String
deriving Repr, DecidableEq

/-- The customer webhook payload fields the handlers read. -/
structure CustomerPayload where
  id : Int
  email : Option String
  first_name : Option String
  last_name : Option String
deriving Repr, DecidableEq

/-- Modelled from the spec: the `orders` table's uniqueness constraint on
(tenant identifier, platform identifier) — the Prisma schema itself is
not under src/.  `prisma.order.create` fails (unique-constraint
violation) when a row with the same key exists, and otherwise appends
the row. -/
def insertOrder (s : Store) (o : Order) : Option Store :=
  if s.orders.any (fun r => decide (r.tenant_id = o.tenant_id ∧ r.shopify_id = o.shopify_id)) then
    none
  else
    some { s with orders := s.orders ++ [o] }

/-- `prisma.customer.upsert` keyed by `tenant_id_shopify_id`: update the
non-key fields of the existing row, or create the row. -/
def upsertCustomer (s : Store) (t sid : String)
    (email firstName lastName : Option String) : Store :=
  if s.customers.any (fun c => decide (c.tenant_id = t ∧ c.shopify_id = sid)) then
    { s with
      customers := s.customers.map fun c =>
        if c.tenant_id = t ∧ c.shopify_id = sid then
          { c with email := email, first_name := firstName, last_name := lastName }
        else c }
  else
    { s with customers := s.customers ++ [⟨t, sid, email, firstName, lastName⟩] }

/-- The row `app/routes/webhooks.orders.create.tsx` builds:
`tenant_id: shop` (as received), `shopify_id: payload.id.toString()`,
`customer_id: payload.customer?.id?.toString()`,
`total_price: parseFloat(payload.total_price || "0")`.  `created_at`
is the store's insertion timestamp. -/
def ordersCreateRow (shop : String) (p : OrderPayload) (now : Nat) : Order :=
  { tenant_id := shop
    shopify_id := toString p.id
    customer_id := (p.customer.bind OrderCustomerRef.id).map toString
    total_price := p.total_price.getD 0
    financial_status := p.financial_status
    created_at := now }

/-- `app/routes/webhooks.orders.create.tsx` after signature
verification: `try { prisma.order.create(...) } catch (error) {
console.error(...) }; return 200`.  `dbOk = false` models the store
being unreachable; either failure is caught and the handler still
responds 200 with the store unchanged. -/
def ordersCreateAction (s : Store) (shop : String) (p : OrderPayload) (now : Nat)
    (dbOk : Bool) : Nat × Store :=
  if dbOk then
    match insertOrder s (ordersCreateRow shop p now) with
    | some s2 => (200, s2)
    | none => (200, s)
  else (200, s)

/-- The row the `part_004` order handler builds: as above except
`customer_id: payload.customer?.id ? String(payload.customer.id) : null`
(a falsy id — absent or zero — becomes null) and
`total_price: Number(payload.total_price ?? 0)`. -/
def ordersCreateRowV2 (shop : String) (p : OrderPayload) (now : Nat) : Order :=
  { tenant_id := shop
    shopify_id := toString p.id
    customer_id :=
      match p.customer.bind OrderCustomerRef.id with
      | some i => if i = 0 then none else some (toString i)
      | none => none
    total_price := p.total_price.getD 0
    financial_status := p.financial_status
    created_at := now }

/-- The `part_004` order handler after signature verification: a failed
connect responds 500 ("DB connect error"), a failed insert responds 500
("DB insert error"), success responds 200. -/
def ordersCreateActionV2 (s : Store) (shop : String) (p : OrderPayload) (now : Nat)
    (dbOk : Bool) : Nat × Store :=
  if dbOk then
    match insertOrder s (ordersCreateRowV2 shop p now) with
    | some s2 => (200, s2)
    | none => (500, s)
  else (500, s)

/-- The customer row `app/routes/webhooks.customers.create.tsx` upserts:
`const tenant = shop.toLowerCase()`, key `(tenant, String(payload.id))`. -/
def customersCreateRow (shop : String) (q : CustomerPayload) : Customer :=
  { tenant_id := jsToLower shop
    shopify_id := toString q.id
    email := q.email
    first_name := q.first_name
    last_name := q.last_name }

/-- `app/routes/webhooks.customers.create.tsx` after signature
verification: a failed connect or upsert responds 500, success upserts
and responds 200. -/
def customersCreateAction (s : Store) (shop : String) (q : CustomerPayload)
    (dbOk : Bool) : Nat × Store :=
  if dbOk then
    (200, upsertCustomer s (jsToLower shop) (toString q.id) q.email q.first_name q.last_name)
  else (500, s)

/- ===== utils/auth.server.ts: magic-link issue and verify ===== -/

/-- A `MagicLinkToken` row: normalized email, unique token hash,
timestamps, nullable `consumedAt`, attempts counter. -/
structure MagicLinkToken where
  email : String
  tokenHash : String
  createdAt : Int
  expiresAt : Int
  consumedAt : Option Int
  attempts : Nat
deriving Repr, DecidableEq

/-- A `User` row: stable identifier and unique email. -/
structure User where
  id : String
  email : String
deriving Repr, DecidableEq

/-- The auth tables. -/
structure AuthDB where
  tokens : List MagicLinkToken
  users : List User
deriving Repr, DecidableEq

/-- The failures the auth functions raise.  `invalidLink` is the thrown
"Invalid or expired link."; `dbError` stands for a failed store
operation (including the unique-token-hash violation on create). -/
inductive AuthErr where
  | invalidEmail
  | rateLimited
  | dbError
  | invalidLink
deriving Repr, DecidableEq

/-- The issuance regex `^[^\s@]+@[^\s@]+\.[^\s@]+$` as a decision
procedure: the string must be whitespace-free, contain exactly one `@`
preceded by at least one character, and the part after the `@` must
contain a `.` that is neither its first nor its last character (the
classes forbid only whitespace and `@`, so a dot may appear anywhere
inside the middle and tail parts). -/
def emailValid (s : String) : Bool :=
  let cs := s.data
  let localPart := cs.takeWhile fun c => c != '@'
  let rest := (cs.dropWhile fun c => c != '@').drop 1
  (!(cs.any fun c => c.isWhitespace)) &&
  (cs.count '@' == 1) &&
  (!localPart.isEmpty) &&
  (((rest.drop 1).dropLast).contains '.')

/-- `prisma.magicLinkToken.findUnique({ where: { tokenHash } })` for a
presented raw token: the record whose stored hash equals the hash of
the token.  `tokenHash` is `@unique`, so the first match is the row. -/
def findToken (h : String → String) (db : AuthDB) (token : String) :
    Option MagicLinkToken :=
  db.tokens.find? fun r => decide (r.tokenHash = h token)

/-- `sendMagicLink(rawEmail)` up to its store effects: normalize the
email, validate it, rate-limit (an existing token for the email created
within the last 30 seconds), then create the token row with a 15-minute
expiry.  `h` is the SHA-256 hex digest, kept abstract; `tokenHash` is
`@unique` in the schema, so creating a row whose hash already exists
fails and leaves the store unchanged.  The outbound email has no store
effect. -/
def sendMagicLink (h : String → String) (db : AuthDB) (rawEmail token : String)
    (now : Int) : Except AuthErr AuthDB :=
  let email := jsTrim (jsToLower rawEmail)
  if !(emailValid email) then .error .invalidEmail
  else if (db.tokens.find? fun r => decide (r.email = email ∧ now - 30000 < r.createdAt)).isSome then
    .error .rateLimited
  else if (findToken h db token).isSome then
    .error .dbError
  else
    .ok { db with tokens := db.tokens ++ [⟨email, h token, now, now + 15 * 60000, none, 0⟩] }

/-- `attempts: rec.attempts + 1` on the record found by token hash. -/
def bumpAttempts (db : AuthDB) (hash : String) : AuthDB :=
  { db with
    tokens := db.tokens.map fun r =>
      if r.tokenHash = hash then { r with attempts := r.attempts + 1 } else r }

/-- `consumedAt: new Date()` on the record found by token hash. -/
def markConsumed (db : AuthDB) (hash : String) (now : Int) : AuthDB :=
  { db with
    tokens := db.tokens.map fun r =>
      if r.tokenHash = hash then { r with consumedAt := some now } else r }

/-- `verifyMagicLink(token, email)`: look the record up by token hash;
fail (bumping attempts when a record exists) when there is no record,
the stored email does not case-insensitively match, the record is
expired, or it is already consumed; otherwise mark the record consumed
and find-or-create the user by the stored email.  The consume update
and the user find-or-create are separate sequential store operations —
there is no surrounding transaction.  `userCreateOk = false` models
`prisma.user.create` failing (the store rejecting the write after the
token was already marked consumed); `newUserId` is the id the store
assigns to a created user. -/
def verifyMagicLink (h : String → String) (db : AuthDB) (token email : String)
    (now : Int) (newUserId : String) (userCreateOk : Bool) :
    Except AuthErr String × AuthDB :=
  match findToken h db token with
  | none => (.error .invalidLink, db)
  | some r0 =>
    if jsToLower r0.email ≠ jsToLower email ∨ r0.expiresAt < now ∨ r0.consumedAt ≠ none then
      (.error .invalidLink, bumpAttempts db (h token))
    else
      let db1 := markConsumed db (h token) now
      match db1.users.find? fun u => decide (u.email = r0.email) with
      | some u => (.ok u.id, db1)
      | none =>
        if userCreateOk then
          (.ok newUserId, { db1 with users := db1.users ++ [⟨newUserId, r0.email⟩] })
        else (.error .dbError, db1)

/-- The operations of the auth subsystem that touch the token store. -/
inductive AuthOp where
  | issue (rawEmail token : String) (now : Int)
  | verify (token email : String) (now : Int) (newUserId : String) (userCreateOk : Bool)
deriving Repr, DecidableEq

/-- The store state after one operation (a failed issue leaves the store
unchanged; a verify leaves whatever state its store writes produced). -/
def applyOp (h : String → String) (db : AuthDB) : AuthOp → AuthDB
  | .issue rawEmail token now =>
    match sendMagicLink h db rawEmail token now with
    | .ok db2 => db2
    | .error _ => db
  | .verify token email now newUserId userCreateOk =>
    (verifyMagicLink h db token email now newUserId userCreateOk).2

/-- The store state after a sequence of operations. -/
def applyOps (h : String → String) (db : AuthDB) : List AuthOp → AuthDB
  | [] => db
  | op :: rest => applyOps h (applyOp h db op) rest

/- ===== generic helper lemmas ===== -/

/-- Splitting a conjunctive filter into two passes. -/
theorem filter_decide_and {α : Type} (P Q : α → Prop) [DecidablePred P] [DecidablePred Q]
    (l : List α) :
    (l.filter fun a => decide (P a ∧ Q a)) =
      (l.filter fun a => decide (P a)).filter fun a => decide (Q a) := by
  rw [List.filter_filter]
  apply List.filter_congr
  intro x _
  rw [← Bool.decide_and]
  apply decide_eq_decide.mpr
  tauto

/-- A search whose predicate entails a filter's predicate may be run on
the filtered list instead. -/
theorem find?_filter_superset {α : Type} (p q : α → Bool)
    (hpq : ∀ a, p a = true → q a = true) :
    ∀ l : List α, l.find? p = (l.filter q).find? p := by
  intro l
  induction l with
  | nil => rfl
  | cons a l ih =>
    by_cases hp : p a = true
    · simp [List.find?_cons, List.filter_cons, hpq a hp, hp]
    · have hp2 : p a = false := by simp at hp; exact hp
      cases hq : q a with
      | false => simp [List.find?_cons, List.filter_cons, hq, hp2, ih]
      | true => simp [List.find?_cons, List.filter_cons, hq, hp2, ih]

/-- Searching a pointwise-updated list when the update preserves the
predicate. -/
theorem find?_map_of_pred_eq {α : Type} (g : α → α) (p : α → Bool)
    (hp : ∀ x, p (g x) = p x) (l : List α) :
    (l.map g).find? p = (l.find? p).map g := by
  rw [List.find?_map]
  have hfun : p ∘ g = p := funext hp
  rw [hfun]

/-- A map that returns its input list fixes every element. -/
theorem map_fix_of_map_eq_self {α : Type} (f : α → α) :
    ∀ l : List α, l.map f = l → ∀ x ∈ l, f x = x := by
  intro l
  induction l with
  | nil =>
    intro _ x hx
    cases hx
  | cons a l ih =>
    intro hmap x hx
    rw [List.map_cons] at hmap
    have h1 : f a = a := (List.cons.injEq _ _ _ _ ▸ hmap).1
    have h2 : l.map f = l := (List.cons.injEq _ _ _ _ ▸ hmap).2
    cases hx with
    | head => exact h1
    | tail _ hmem => exact ih h2 x hmem

/-- Unfolding `Char.ofNatAux` to its code point. -/
theorem toNat_ofNatAux (n : Nat) (h : n.isValidChar) : (Char.ofNatAux n h).toNat = n := by
  simp only [Char.ofNatAux, Char.toNat, UInt32.toNat]
  rfl

/-- Lowercasing moves an ASCII uppercase letter. -/
theorem toLower_ne_of_isUpper (c : Char) (h : c.isUpper = true) : Char.toLower c ≠ c := by
  have hn : 65 ≤ c.toNat ∧ c.toNat ≤ 90 := by
    simp [Char.isUpper, UInt32.le_def, BitVec.le_def] at h
    exact ⟨h.1, h.2⟩
  intro he
  have hx : (Char.toLower c).toNat = c.toNat := by rw [he]
  have hvalid : (c.toNat + 32).isValidChar := by
    left
    omega
  rw [Char.toLower] at hx
  rw [if_pos ⟨hn.1, hn.2⟩] at hx
  rw [Char.ofNat, dif_pos hvalid, toNat_ofNatAux] at hx
  omega

/-- A string containing an ASCII uppercase letter is changed by
`toLowerCase`. -/
theorem toLower_ne_self (s : String) (c : Char) (hc : c ∈ s.data) (hu : c.isUpper = true) :
    jsToLower s ≠ s := by
  intro he
  have hdata : s.data.map Char.toLower = s.data := by
    have h2 := congrArg String.data he
    exact h2
  exact toLower_ne_of_isUpper c hu (map_fix_of_map_eq_self Char.toLower s.data hdata c hc)

/- ===== C9: tenant resolution without a tenant cookie ===== -/

/-- C9 (amended): `getTenantId` fails with the tenant-not-selected error
whenever no part of the cookie header has key `tenant_id`; however the
dashboard loader does not consult this resolver (see the
counterexample). -/
theorem getTenantId_error_of_no_cookie (header : Option String)
    (h : ∀ hs, header = some hs → ∀ part ∈ jsSplit hs ';',
      (jsSplit (jsTrim part) '=').headD "" ≠ "tenant_id") :
    getTenantId header = .error noTenantMsg := by
  cases header with
  | none => rfl
  | some hs =>
    have hget : cookieGet (cookieEntries (some hs)) "tenant_id" = none := by
      unfold cookieGet
      rw [List.find?_eq_none.mpr]
      · rfl
      · intro e he
        rw [List.mem_reverse] at he
        unfold cookieEntries at he
        obtain ⟨part, hp, he2⟩ := List.mem_map.mp he
        have h1 : e.1 = (jsSplit (jsTrim part) '=').headD "" := by rw [← he2]
        simp only [decide_eq_true_eq]
        rw [h1]
        exact h hs rfl part hp
    unfold getTenantId
    rw [hget]

/-- A store holding one order for tenant "a", used to exercise the
dashboard loader's tenant fallback. -/
def c9store : Store := ⟨[⟨"a", "1", none, 10, none, 0⟩], [], []⟩

/-- C9 (counterexample): a dashboard request carrying no tenant at all —
no `tenant` query parameter and, in particular, no tenant cookie — does
not fail: the loader silently selects the first known tenant and serves
its tenant-scoped aggregates, contradicting the claim that every
tenant-scoped read fails with NoTenantSelectedError in this situation. -/
theorem c9_counterexample :
    dashSelectedTenant none c9store = "a" ∧ dashOrdersCount "a" 0 86399999 c9store = 1 := by
  constructor <;> rfl

/-- C9 witness: a concrete cookie header with no `tenant_id` entry makes
`getTenantId` fail. -/
theorem c9_witness :
    getTenantId (some "theme=dark; session=abc") = .error noTenantMsg := by
  apply getTenantId_error_of_no_cookie
  intro hs hhs part hp
  cases hhs
  fin_cases hp <;> decide

/- ===== C10: shop-domain case mismatch between handlers ===== -/

/-- C10: for a shop domain containing an ASCII uppercase letter, the
order handlers persist the shop as received while the customer handler
persists the lowercased shop, so the rows carry different tenant
identifiers and the dashboard's top-customers LEFT JOIN condition
(`joinMatch`) never pairs such a customer row with such an order row. -/
theorem webhook_tenant_case_mismatch (shop : String) (c : Char)
    (hc : c ∈ shop.data) (hu : c.isUpper = true) (p : OrderPayload)
    (q : CustomerPayload) (now : Nat) :
    (ordersCreateRow shop p now).tenant_id = shop ∧
    (ordersCreateRowV2 shop p now).tenant_id = shop ∧
    (customersCreateRow shop q).tenant_id = jsToLower shop ∧
    (customersCreateRow shop q).tenant_id ≠ (ordersCreateRow shop p now).tenant_id ∧
    joinMatch (customersCreateRow shop q) (ordersCreateRow shop p now) = false ∧
    joinMatch (customersCreateRow shop q) (ordersCreateRowV2 shop p now) = false := by
  have hne : jsToLower shop ≠ shop := toLower_ne_self shop c hc hu
  refine ⟨rfl, rfl, rfl, hne, ?_, ?_⟩ <;>
  · unfold joinMatch
    simp only [decide_eq_false_iff_not]
    intro hand
    exact hne hand.1

/-- C10 witness: a concrete mixed-case shop domain whose order and
customer rows never join, even when the order references the
customer's platform identifier. -/
theorem c10_witness :
    (ordersCreateRow "MyShop.example" ⟨1, some ⟨some 7⟩, some 5, none⟩ 3).tenant_id
        = "MyShop.example" ∧
      joinMatch (customersCreateRow "MyShop.example" ⟨7, none, none, none⟩)
        (ordersCreateRow "MyShop.example" ⟨1, some ⟨some 7⟩, some 5, none⟩ 3) = false := by
  have h := webhook_tenant_case_mismatch "MyShop.example" 'M' (by decide) (by decide)
    ⟨1, some ⟨some 7⟩, some 5, none⟩ ⟨7, none, none, none⟩ 3
  exact ⟨h.1, h.2.2.2.2.1⟩

/- ===== C8: top-5 ordering ===== -/

/-- C8 (amended): the top-5 list is sorted by spend in non-increasing
(weakly descending) order; the embedding is a pure function of the
store state, but the SQL names no tie-breaking key, so nothing stronger
than weak descent is guaranteed. -/
theorem dashTop_sorted_nonincreasing (t : String) (fromStart toEnd : Nat) (s : Store) :
    ((dashTop t fromStart toEnd s).map TopRow.spend).Sorted (fun a b => a ≥ b) := by
  have h1 : List.Sorted spendGE
      (List.insertionSort spendGE
        (groupTop (topKeyOf s.customers) (ordersInRange t fromStart toEnd s))) :=
    List.sorted_insertionSort spendGE _
  have h2 : List.Sorted spendGE (dashTop t fromStart toEnd s) :=
    List.Pairwise.sublist (List.take_sublist 5 _) h1
  exact List.pairwise_map.mpr h2

/-- Two customers of the same tenant with one equal-priced order each:
a spend tie inside the top 5. -/
def c8store : Store :=
  ⟨[⟨"t", "1", some "1", 10, none, 0⟩, ⟨"t", "2", some "2", 10, none, 0⟩],
   [⟨"t", "1", some "e1", some "A", some "B"⟩, ⟨"t", "2", some "e2", some "C", some "D"⟩], []⟩

/-- C8 (counterexample): with a spend tie the ranking is not sorted
strictly descending by spend — the claim's strictness fails whenever
two ranked customers have equal spend. -/
theorem c8_counterexample :
    ¬ (((dashTop "t" 0 86399999 c8store).map TopRow.spend).Sorted (fun a b => a > b)) := by
  intro h
  have he : (dashTop "t" 0 86399999 c8store).map TopRow.spend = [10, 10] := by
    with_unfolding_all decide
  rw [he] at h
  have h10 : (10 : Rat) > 10 := List.rel_of_sorted_cons h 10 (by simp)
  exact absurd h10 (lt_irrefl 10)

/- ===== C7: webhook persistence failures and response status ===== -/

/-- A store holding one order with key ("t", "1"). -/
def c7store : Store := ⟨[⟨"t", "1", none, 5, none, 0⟩], [], []⟩

/-- C7 (counterexample): `webhooks.orders.create.tsx` catches the failed
persistence step and still responds 200 — both when the store is
unreachable and when the insert hits the uniqueness constraint — so a
webhook whose persistence fails is answered with a success status,
contradicting the claim. -/
theorem c7_counterexample :
    (ordersCreateAction c7store "t" ⟨2, none, some 5, none⟩ 0 false).1 = 200 ∧
    (ordersCreateAction c7store "t" ⟨1, none, some 5, none⟩ 0 true).1 = 200 := by
  constructor <;> with_unfolding_all decide

/-- C7 (amended): the `part_004` order handler and the customer handler
respond 500 when the store is unreachable, and the `part_004` order
handler responds 500 when the insert violates the (tenant, platform id)
uniqueness constraint; `webhooks.orders.create.tsx` is the exception
shown in the counterexample. -/
theorem webhook_5xx_on_persistence_failure (s : Store) (shop : String)
    (p : OrderPayload) (q : CustomerPayload) (now : Nat) :
    (ordersCreateActionV2 s shop p now false).1 = 500 ∧
    (customersCreateAction s shop q false).1 = 500 ∧
    ((∃ r ∈ s.orders, r.tenant_id = shop ∧ r.shopify_id = toString p.id) →
      (ordersCreateActionV2 s shop p now true).1 = 500) := by
  refine ⟨rfl, rfl, ?_⟩
  intro ⟨r, hr, h1, h2⟩
  have hany : (s.orders.any fun r2 =>
      decide (r2.tenant_id = (ordersCreateRowV2 shop p now).tenant_id ∧
        r2.shopify_id = (ordersCreateRowV2 shop p now).shopify_id)) = true := by
    rw [List.any_eq_true]
    exact ⟨r, hr, by simp [ordersCreateRowV2, h1, h2]⟩
  unfold ordersCreateActionV2 insertOrder
  rw [if_pos rfl]
  rw [hany]
  rfl

/-- C7 witness: concrete failing deliveries answered 500 by the
`part_004` handler. -/
theorem c7_witness :
    (ordersCreateActionV2 c7store "t" ⟨2, none, some 5, none⟩ 0 false).1 = 500 ∧
    (ordersCreateActionV2 c7store "t" ⟨1, none, some 5, none⟩ 0 true).1 = 500 := by
  constructor
  · exact (webhook_5xx_on_persistence_failure c7store "t" ⟨2, none, some 5, none⟩
      ⟨1, none, none, none⟩ 0).1
  · exact (webhook_5xx_on_persistence_failure c7store "t" ⟨1, none, some 5, none⟩
      ⟨1, none, none, none⟩ 0).2.2 ⟨⟨"t", "1", none, 5, none, 0⟩, by decide, rfl, by decide⟩

/- ===== C6: webhook redelivery ===== -/

theorem insertOrder_some_eq (s s2 : Store) (o : Order) (h : insertOrder s o = some s2) :
    s2.orders = s.orders ++ [o] := by
  unfold insertOrder at h
  split at h
  · exact absurd h (by simp)
  · cases h
    rfl

theorem insertOrder_again (s s2 : Store) (o : Order) (h : insertOrder s o = some s2) :
    insertOrder s2 o = none := by
  unfold insertOrder
  rw [insertOrder_some_eq s s2 o h, if_pos]
  rw [List.any_append]
  simp

theorem ordersCreateAction_idem (s : Store) (shop : String) (p : OrderPayload) (now : Nat) :
    (ordersCreateAction (ordersCreateAction s shop p now true).2 shop p now true).2
      = (ordersCreateAction s shop p now true).2 := by
  unfold ordersCreateAction
  cases h1 : insertOrder s (ordersCreateRow shop p now) with
  | none => simp [h1]
  | some s2 => simp [h1, insertOrder_again s s2 _ h1]

theorem ordersCreateActionV2_idem (s : Store) (shop : String) (p : OrderPayload) (now : Nat) :
    (ordersCreateActionV2 (ordersCreateActionV2 s shop p now true).2 shop p now true).2
      = (ordersCreateActionV2 s shop p now true).2 := by
  unfold ordersCreateActionV2
  cases h1 : insertOrder s (ordersCreateRowV2 shop p now) with
  | none => simp [h1]
  | some s2 => simp [h1, insertOrder_again s s2 _ h1]

theorem upsertCustomer_idem (s : Store) (t sid : String) (e f l : Option String) :
    upsertCustomer (upsertCustomer s t sid e f l) t sid e f l
      = upsertCustomer s t sid e f l := by
  unfold upsertCustomer
  by_cases h1 : (s.customers.any fun c => decide (c.tenant_id = t ∧ c.shopify_id = sid)) = true
  · rw [if_pos h1]
    have hpres : ∀ c : Customer,
        (decide ((if c.tenant_id = t ∧ c.shopify_id = sid then
            { c with email := e, first_name := f, last_name := l } else c).tenant_id = t ∧
          (if c.tenant_id = t ∧ c.shopify_id = sid then
            { c with email := e, first_name := f, last_name := l } else c).shopify_id = sid)) =
        decide (c.tenant_id = t ∧ c.shopify_id = sid) := by
      intro c
      by_cases hc : c.tenant_id = t ∧ c.shopify_id = sid
      · rw [if_pos hc]
      · rw [if_neg hc]
    have hany2 : ((s.customers.map fun c =>
        if c.tenant_id = t ∧ c.shopify_id = sid then
          { c with email := e, first_name := f, last_name := l } else c).any
          fun c => decide (c.tenant_id = t ∧ c.shopify_id = sid)) = true := by
      rw [List.any_map]
      rw [show ((fun c : Customer => decide (c.tenant_id = t ∧ c.shopify_id = sid)) ∘
        (fun c : Customer => if c.tenant_id = t ∧ c.shopify_id = sid then
          { c with email := e, first_name := f, last_name := l } else c)) =
        (fun c : Customer => decide (c.tenant_id = t ∧ c.shopify_id = sid)) from funext hpres]
      exact h1
    rw [if_pos hany2]
    congr 1
    rw [List.map_map]
    apply List.map_congr_left
    intro c _
    by_cases hc : c.tenant_id = t ∧ c.shopify_id = sid
    · simp only [Function.comp_apply, if_pos hc]
    · simp only [Function.comp_apply, if_neg hc]
  · rw [if_neg h1]
    have h1f : (s.customers.any fun c => decide (c.tenant_id = t ∧ c.shopify_id = sid)) = false :=
      Bool.eq_false_iff.mpr h1
    have hall := List.any_eq_false.mp h1f
    have hany2 : ((s.customers ++
        [({ tenant_id := t, shopify_id := sid, email := e, first_name := f,
            last_name := l } : Customer)]).any
        fun c => decide (c.tenant_id = t ∧ c.shopify_id = sid)) = true := by
      rw [List.any_append]
      simp
    rw [if_pos hany2]
    congr 1
    rw [List.map_append]
    have hid : (s.customers.map fun c =>
        if c.tenant_id = t ∧ c.shopify_id = sid then
          { c with email := e, first_name := f, last_name := l } else c) = s.customers := by
      rw [show s.customers = s.customers.map id from (List.map_id _).symm]
      rw [List.map_map]
      apply List.map_congr_left
      intro c hc
      have hnc : ¬ (c.tenant_id = t ∧ c.shopify_id = sid) := by
        have := hall c (by simpa using hc)
        simpa using this
      simp [Function.comp_apply, if_neg hnc]
    rw [hid]
    congr 1
    simp

theorem customersCreateAction_idem (s : Store) (shop : String) (q : CustomerPayload) :
    (customersCreateAction (customersCreateAction s shop q true).2 shop q true).2
      = (customersCreateAction s shop q true).2 := by
  unfold customersCreateAction
  simp only [if_pos]
  exact congrArg Prod.snd (congrArg (Prod.mk 200)
    (upsertCustomer_idem s (jsToLower shop) (toString q.id) q.email q.first_name q.last_name))

theorem insertOrder_count_some (s s2 : Store) (o : Order)
    (hi : insertOrder s o = some s2) :
    (s2.orders.filter fun r =>
      decide (r.tenant_id = o.tenant_id ∧ r.shopify_id = o.shopify_id)).length = 1 := by
  have he := insertOrder_some_eq s s2 o hi
  have hanyf : (s.orders.any fun r =>
      decide (r.tenant_id = o.tenant_id ∧ r.shopify_id = o.shopify_id)) = false := by
    unfold insertOrder at hi
    split at hi
    · exact absurd hi (by simp)
    · rename_i hcond
      exact Bool.eq_false_iff.mpr hcond
  have hnil : (s.orders.filter fun r =>
      decide (r.tenant_id = o.tenant_id ∧ r.shopify_id = o.shopify_id)) = [] := by
    apply List.filter_eq_nil_iff.mpr
    exact List.any_eq_false.mp hanyf
  rw [he, List.filter_append, hnil]
  simp

theorem insertOrder_count_none (s : Store) (o : Order)
    (hi : insertOrder s o = none)
    (h : (s.orders.filter fun r =>
      decide (r.tenant_id = o.tenant_id ∧ r.shopify_id = o.shopify_id)).length ≤ 1) :
    (s.orders.filter fun r =>
      decide (r.tenant_id = o.tenant_id ∧ r.shopify_id = o.shopify_id)).length = 1 := by
  have hany : (s.orders.any fun r =>
      decide (r.tenant_id = o.tenant_id ∧ r.shopify_id = o.shopify_id)) = true := by
    unfold insertOrder at hi
    split at hi
    · rename_i hcond
      exact hcond
    · exact absurd hi (by simp)
  obtain ⟨r, hr, hpr⟩ := List.any_eq_true.mp hany
  have hmem : r ∈ s.orders.filter fun r2 =>
      decide (r2.tenant_id = o.tenant_id ∧ r2.shopify_id = o.shopify_id) :=
    List.mem_filter.mpr ⟨hr, hpr⟩
  have hpos : 0 < (s.orders.filter fun r2 =>
      decide (r2.tenant_id = o.tenant_id ∧ r2.shopify_id = o.shopify_id)).length :=
    List.length_pos.mpr (List.ne_nil_of_mem hmem)
  omega

theorem upsertCustomer_count (s : Store) (t sid : String) (e f l : Option String)
    (h : (s.customers.filter fun c =>
      decide (c.tenant_id = t ∧ c.shopify_id = sid)).length ≤ 1) :
    ((upsertCustomer s t sid e f l).customers.filter fun c =>
      decide (c.tenant_id = t ∧ c.shopify_id = sid)).length = 1 := by
  unfold upsertCustomer
  by_cases h1 : (s.customers.any fun c => decide (c.tenant_id = t ∧ c.shopify_id = sid)) = true
  · rw [if_pos h1]
    have hpres : ∀ c : Customer,
        (decide ((if c.tenant_id = t ∧ c.shopify_id = sid then
            { c with email := e, first_name := f, last_name := l } else c).tenant_id = t ∧
          (if c.tenant_id = t ∧ c.shopify_id = sid then
            { c with email := e, first_name := f, last_name := l } else c).shopify_id = sid)) =
        decide (c.tenant_id = t ∧ c.shopify_id = sid) := by
      intro c
      by_cases hc : c.tenant_id = t ∧ c.shopify_id = sid
      · rw [if_pos hc]
      · rw [if_neg hc]
    simp only []
    rw [List.filter_map]
    rw [show ((fun c : Customer => decide (c.tenant_id = t ∧ c.shopify_id = sid)) ∘
      (fun c : Customer => if c.tenant_id = t ∧ c.shopify_id = sid then
        { c with email := e, first_name := f, last_name := l } else c)) =
      (fun c : Customer => decide (c.tenant_id = t ∧ c.shopify_id = sid)) from funext hpres]
    rw [List.length_map]
    obtain ⟨c, hc, hpc⟩ := List.any_eq_true.mp h1
    have hpos : 0 < (s.customers.filter fun c2 =>
        decide (c2.tenant_id = t ∧ c2.shopify_id = sid)).length :=
      List.length_pos.mpr (List.ne_nil_of_mem (List.mem_filter.mpr ⟨hc, hpc⟩))
    omega
  · rw [if_neg h1]
    have h1f : (s.customers.any fun c => decide (c.tenant_id = t ∧ c.shopify_id = sid)) = false :=
      Bool.eq_false_iff.mpr h1
    have hnil : (s.customers.filter fun c =>
        decide (c.tenant_id = t ∧ c.shopify_id = sid)) = [] :=
      List.filter_eq_nil_iff.mpr (List.any_eq_false.mp h1f)
    simp only [List.filter_append, hnil]
    simp

/-- C6 (amended): redelivering an identical webhook payload is
idempotent for every embedded handler — the customer handler because it
upserts, the order handlers because the duplicate insert fails against
the (tenant identifier, platform identifier) uniqueness constraint and
leaves the store unchanged — and after a delivery exactly one row with
the payload's key is persisted (given the uniqueness invariant held
before); but the order handlers are insert-only, not upserts. -/
theorem webhook_redelivery_idempotent (s : Store) (shop : String) (p : OrderPayload)
    (q : CustomerPayload) (now : Nat) :
    ((ordersCreateAction (ordersCreateAction s shop p now true).2 shop p now true).2
        = (ordersCreateAction s shop p now true).2) ∧
    ((ordersCreateActionV2 (ordersCreateActionV2 s shop p now true).2 shop p now true).2
        = (ordersCreateActionV2 s shop p now true).2) ∧
    ((customersCreateAction (customersCreateAction s shop q true).2 shop q true).2
        = (customersCreateAction s shop q true).2) ∧
    ((s.orders.filter fun r =>
        decide (r.tenant_id = shop ∧ r.shopify_id = toString p.id)).length ≤ 1 →
      (((ordersCreateAction s shop p now true).2.orders.filter fun r =>
        decide (r.tenant_id = shop ∧ r.shopify_id = toString p.id)).length = 1)) ∧
    ((s.customers.filter fun c =>
        decide (c.tenant_id = jsToLower shop ∧ c.shopify_id = toString q.id)).length ≤ 1 →
      (((customersCreateAction s shop q true).2.customers.filter fun c =>
        decide (c.tenant_id = jsToLower shop ∧ c.shopify_id = toString q.id)).length = 1)) := by
  refine ⟨ordersCreateAction_idem s shop p now, ordersCreateActionV2_idem s shop p now,
    customersCreateAction_idem s shop q, ?_, ?_⟩
  · intro h
    unfold ordersCreateAction
    rw [if_pos rfl]
    cases hi : insertOrder s (ordersCreateRow shop p now) with
    | some s2 => exact insertOrder_count_some s s2 (ordersCreateRow shop p now) hi
    | none => exact insertOrder_count_none s (ordersCreateRow shop p now) hi h
  · intro h
    exact upsertCustomer_count s (jsToLower shop) (toString q.id) q.email q.first_name q.last_name h

/-- A store already holding the order row ("t", "1") at price 5. -/
def c6store : Store := ⟨[⟨"t", "1", none, 5, none, 0⟩], [], []⟩

/-- C6 (counterexample): the order-create handlers are insert-only, not
upserts — delivering an order payload whose key already exists leaves
the stored row untouched (price 5) instead of updating it to the
payload (price 7), refuting the claim's "every webhook handler upserts
rather than insert-only". -/
theorem c6_counterexample :
    (ordersCreateAction c6store "t" ⟨1, none, some 7, none⟩ 9 true).2 = c6store ∧
    (ordersCreateActionV2 c6store "t" ⟨1, none, some 7, none⟩ 9 true).2 = c6store ∧
    c6store.orders.map Order.total_price = [5] := by
  refine ⟨?_, ?_, ?_⟩ <;> with_unfolding_all decide

/-- C6 witness: concrete single deliveries leave exactly one row with
the delivered key. -/
theorem c6_witness :
    (((ordersCreateAction ⟨[], [], []⟩ "s" ⟨1, none, some 7, none⟩ 0 true).2.orders.filter
        fun r => decide (r.tenant_id = "s" ∧ r.shopify_id = toString (1 : Int))).length = 1) ∧
    (((customersCreateAction ⟨[], [], []⟩ "s" ⟨2, none, none, none⟩ true).2.customers.filter
        fun c => decide (c.tenant_id = jsToLower "s" ∧
          c.shopify_id = toString (2 : Int))).length = 1) := by
  constructor
  · exact (webhook_redelivery_idempotent ⟨[], [], []⟩ "s" ⟨1, none, some 7, none⟩
      ⟨2, none, none, none⟩ 0).2.2.2.1 (by decide)
  · exact (webhook_redelivery_idempotent ⟨[], [], []⟩ "s" ⟨1, none, some 7, none⟩
      ⟨2, none, none, none⟩ 0).2.2.2.2 (by decide)

/- ===== C1: tenant isolation of the dashboard aggregates ===== -/

/-- The tenant / date-range filter is the date-range filter applied to
the tenant's rows. -/
theorem ordersInRange_eq_filter (t : String) (fromStart toEnd : Nat) (s : Store) :
    ordersInRange t fromStart toEnd s =
      (s.orders.filter fun o => decide (o.tenant_id = t)).filter
        fun o => decide (fromStart ≤ o.created_at ∧ o.created_at ≤ toEnd) := by
  unfold ordersInRange
  rw [List.filter_filter]
  apply List.filter_congr
  intro x _
  rw [← Bool.decide_and]
  apply decide_eq_decide.mpr
  tauto

theorem groupTop_congr (k1 k2 : Order → TopKey) (l : List Order)
    (h : ∀ o ∈ l, k1 o = k2 o) : groupTop k1 l = groupTop k2 l := by
  unfold groupTop
  rw [List.map_congr_left h]
  apply List.map_congr_left
  intro k _
  have hf : (l.filter fun o => decide (k1 o = k)) = (l.filter fun o => decide (k2 o = k)) := by
    apply List.filter_congr
    intro o ho
    rw [h o ho]
  rw [hf]

theorem topKeyOf_congr_of_filter_eq (A : String) (cs1 cs2 : List Customer)
    (hc : cs1.filter (fun c => decide (c.tenant_id = A))
        = cs2.filter (fun c => decide (c.tenant_id = A)))
    (o : Order) (ho : o.tenant_id = A) :
    topKeyOf cs1 o = topKeyOf cs2 o := by
  unfold topKeyOf findJoin
  have hsub : ∀ c : Customer, joinMatch c o = true →
      (decide (c.tenant_id = A)) = true := by
    intro c hj
    unfold joinMatch at hj
    rw [decide_eq_true_eq] at hj
    rw [decide_eq_true_eq]
    rw [hj.1, ho]
  rw [find?_filter_superset _ _ hsub cs1, find?_filter_superset _ _ hsub cs2, hc]

/-- C1: the dashboard aggregates for tenant A depend only on the rows
whose tenant identifier is A. -/
theorem aggregation_tenant_isolated (A : String) (fromStart toEnd : Nat) (s1 s2 : Store)
    (ho : s1.orders.filter (fun o => decide (o.tenant_id = A))
        = s2.orders.filter (fun o => decide (o.tenant_id = A)))
    (hc : s1.customers.filter (fun c => decide (c.tenant_id = A))
        = s2.customers.filter (fun c => decide (c.tenant_id = A))) :
    dashSeries A fromStart toEnd s1 = dashSeries A fromStart toEnd s2 ∧
    dashTop A fromStart toEnd s1 = dashTop A fromStart toEnd s2 ∧
    dashTotalCustomers A s1 = dashTotalCustomers A s2 ∧
    dashOrdersCount A fromStart toEnd s1 = dashOrdersCount A fromStart toEnd s2 ∧
    dashRevenue A fromStart toEnd s1 = dashRevenue A fromStart toEnd s2 ∧
    dashAvgOrderValue A fromStart toEnd s1 = dashAvgOrderValue A fromStart toEnd s2 := by
  have hL : ordersInRange A fromStart toEnd s1 = ordersInRange A fromStart toEnd s2 := by
    rw [ordersInRange_eq_filter, ordersInRange_eq_filter, ho]
  have htop : dashTop A fromStart toEnd s1 = dashTop A fromStart toEnd s2 := by
    unfold dashTop
    rw [hL]
    have hkeys : groupTop (topKeyOf s1.customers) (ordersInRange A fromStart toEnd s2)
        = groupTop (topKeyOf s2.customers) (ordersInRange A fromStart toEnd s2) := by
      apply groupTop_congr
      intro o hmem
      have hot : o.tenant_id = A := by
        unfold ordersInRange at hmem
        have := (List.mem_filter.mp hmem).2
        rw [decide_eq_true_eq] at this
        exact this.1
      exact topKeyOf_congr_of_filter_eq A s1.customers s2.customers hc o hot
    rw [hkeys]
  refine ⟨?_, htop, ?_, ?_, ?_, ?_⟩
  · unfold dashSeries
    rw [hL]
  · unfold dashTotalCustomers
    rw [hc]
  · unfold dashOrdersCount
    rw [hL]
  · unfold dashRevenue
    rw [hL]
  · unfold dashAvgOrderValue dashRevenue dashOrdersCount
    rw [hL]

def c1sA : Store :=
  ⟨[⟨"a", "1", some "7", 10, none, 0⟩],
   [⟨"a", "7", some "x@a", some "X", none⟩], []⟩

def c1sB : Store :=
  ⟨[⟨"a", "1", some "7", 10, none, 0⟩, ⟨"b", "9", some "7", 99, none, 0⟩],
   [⟨"a", "7", some "x@a", some "X", none⟩, ⟨"b", "7", some "y@b", some "Y", none⟩], []⟩

theorem c1_witness :
    dashSeries "a" 0 86399999 c1sA = dashSeries "a" 0 86399999 c1sB ∧
    dashTop "a" 0 86399999 c1sA = dashTop "a" 0 86399999 c1sB ∧
    dashTotalCustomers "a" c1sA = dashTotalCustomers "a" c1sB ∧
    dashOrdersCount "a" 0 86399999 c1sA = dashOrdersCount "a" 0 86399999 c1sB ∧
    dashRevenue "a" 0 86399999 c1sA = dashRevenue "a" 0 86399999 c1sB ∧
    dashAvgOrderValue "a" 0 86399999 c1sA = dashAvgOrderValue "a" 0 86399999 c1sB :=
  aggregation_tenant_isolated "a" 0 86399999 c1sA c1sB (by decide) (by decide)

/- ===== C2: a consumed token never verifies again ===== -/

theorem hash_preserved_bump (token2 : String) (h : String → String) (tok : String) :
    ∀ x : MagicLinkToken,
      (decide ((if x.tokenHash = token2 then { x with attempts := x.attempts + 1 } else x).tokenHash
        = h tok)) = decide (x.tokenHash = h tok) := by
  intro x
  by_cases hx : x.tokenHash = token2
  · rw [if_pos hx]
  · rw [if_neg hx]

theorem hash_preserved_consume (token2 : String) (now : Int) (h : String → String)
    (tok : String) :
    ∀ x : MagicLinkToken,
      (decide ((if x.tokenHash = token2 then { x with consumedAt := some now } else x).tokenHash
        = h tok)) = decide (x.tokenHash = h tok) := by
  intro x
  by_cases hx : x.tokenHash = token2
  · rw [if_pos hx]
  · rw [if_neg hx]

theorem findToken_markConsumed_other (h : String → String) (db : AuthDB)
    (tok token : String) (now : Int) (r0 : MagicLinkToken)
    (hr0 : r0.tokenHash = h tok) (hne : h token ≠ h tok)
    (hf : findToken h db tok = some r0) :
    findToken h (markConsumed db (h token) now) tok = some r0 := by
  unfold markConsumed findToken
  rw [find?_map_of_pred_eq _ _ (hash_preserved_consume (h token) now h tok)]
  unfold findToken at hf
  rw [hf]
  simp only [Option.map_some']
  rw [if_neg (by rw [hr0]; exact fun hx => hne hx.symm)]

/-- One auth-store operation preserves a consumed record: the record
found by a token hash keeps its consumed-at value across any issue or
verify. -/
theorem findToken_after_op (h : String → String) (db : AuthDB) (op : AuthOp)
    (tok : String) (r0 : MagicLinkToken) (c : Int)
    (hf : findToken h db tok = some r0) (hc : r0.consumedAt = some c) :
    ∃ r1, findToken h (applyOp h db op) tok = some r1 ∧ r1.consumedAt = some c := by
  cases op with
  | issue rawEmail token now =>
    simp only [applyOp]
    cases hsend : sendMagicLink h db rawEmail token now with
    | error e => exact ⟨r0, hf, hc⟩
    | ok db2 =>
      simp only [sendMagicLink] at hsend
      split_ifs at hsend with h1 h2 h3
      all_goals first
        | exact Except.noConfusion hsend
        | · refine ⟨r0, ?_, hc⟩
            obtain rfl : _ = db2 := by injection hsend
            unfold findToken at hf ⊢
            simp only [List.find?_append, hf]
            rfl
  | verify token email now newUserId userCreateOk =>
    simp only [applyOp]
    unfold verifyMagicLink
    split
    · exact ⟨r0, hf, hc⟩
    · rename_i r1 hft
      split
      · refine ⟨if r0.tokenHash = h token then { r0 with attempts := r0.attempts + 1 } else r0,
          ?_, ?_⟩
        · unfold bumpAttempts findToken
          rw [find?_map_of_pred_eq _ _ (hash_preserved_bump (h token) h tok)]
          unfold findToken at hf
          rw [hf]
          rfl
        · by_cases hx : r0.tokenHash = h token
          · rw [if_pos hx]
            exact hc
          · rw [if_neg hx]
            exact hc
      · rename_i hcond
        have hne : h token ≠ h tok := by
          intro he
          unfold findToken at hf hft
          rw [he, hf] at hft
          injection hft with h12
          push_neg at hcond
          rw [h12, hcond.2.2] at hc
          cases hc
        have hr0hash : r0.tokenHash = h tok := by
          unfold findToken at hf
          have h2 := List.find?_some hf
          rw [decide_eq_true_eq] at h2
          exact h2
        have hmark := findToken_markConsumed_other h db tok token now r0 hr0hash hne hf
        refine ⟨r0, ?_, hc⟩
        unfold findToken
        unfold findToken at hmark
        cases hfu : List.find? (fun u => decide (u.email = r1.email))
            (markConsumed db (h token) now).users with
        | some u =>
          simp only [hfu]
          exact hmark
        | none =>
          cases hok : userCreateOk with
          | true =>
            simp only [hfu, hok, if_true]
            exact hmark
          | false =>
            simp only [hfu, hok, if_false]
            exact hmark

/-- Any sequence of auth-store operations preserves a consumed
record. -/
theorem findToken_after_ops (h : String → String) (tok : String) (c : Int) :
    ∀ (ops : List AuthOp) (db : AuthDB) (r0 : MagicLinkToken),
      findToken h db tok = some r0 → r0.consumedAt = some c →
      ∃ r1, findToken h (applyOps h db ops) tok = some r1 ∧ r1.consumedAt = some c := by
  intro ops
  induction ops with
  | nil =>
    intro db r0 hf hc
    exact ⟨r0, hf, hc⟩
  | cons op rest ih =>
    intro db r0 hf hc
    obtain ⟨r1, hf1, hc1⟩ := findToken_after_op h db op tok r0 c hf hc
    exact ih (applyOp h db op) r1 hf1 hc1

/-- C2: once a token record's consumed-at is set, every subsequent
verification with that token fails with the invalid-link error, after
any sequence of further operations (no operation clears consumed-at) —
regardless of the supplied email, the time, or the outcome of the user
step. -/
theorem consumed_token_never_verifies (h : String → String) (db : AuthDB)
    (tok : String) (r0 : MagicLinkToken) (c : Int)
    (hf : findToken h db tok = some r0) (hc : r0.consumedAt = some c) :
    ∀ (ops : List AuthOp) (email : String) (now : Int) (newUserId : String)
      (userCreateOk : Bool),
      (verifyMagicLink h (applyOps h db ops) tok email now newUserId userCreateOk).1
        = .error .invalidLink := by
  intro ops email now newUserId userCreateOk
  obtain ⟨r1, hf1, hc1⟩ := findToken_after_ops h tok c ops db r0 hf hc
  unfold verifyMagicLink
  simp only [hf1]
  rw [if_pos (Or.inr (Or.inr (show r1.consumedAt ≠ none by rw [hc1]; simp)))]

/-- An auth store whose only token (hash "T#") is already consumed. -/
def c2db : AuthDB := ⟨[⟨"a@b.c", "T#", 0, 900000, some 5, 0⟩], [⟨"u1", "a@b.c"⟩]⟩

def c2ops : List AuthOp :=
  [.issue "x@y.zz" "newTok" 50, .verify "other" "x@y.zz" 60 "u2" true]

/-- C2 witness: after an issue and an unrelated verify, the consumed
token still fails verification with the matching email, unexpired. -/
theorem c2_witness :
    (verifyMagicLink (fun s => s ++ "#") (applyOps (fun s => s ++ "#") c2db c2ops)
      "T" "a@b.c" 100 "u9" true).1 = .error .invalidLink :=
  consumed_token_never_verifies (fun s => s ++ "#") c2db "T" ⟨"a@b.c", "T#", 0, 900000, some 5, 0⟩ 5
    (by decide) (by decide) c2ops "a@b.c" 100 "u9" true

/- ===== C4: the verify contract ===== -/

/-- The spec-side enumeration of the InvalidLinkError conditions of
`verify(token, email)`: no stored record's token hash matches the hash
of the presented token; or the stored email does not case-insensitively
equal the supplied email; or the expiry timestamp has passed; or the
record is already consumed.  Stated over the same store lookup the code
performs, to be compared with the embedded `verifyMagicLink`. -/
def invalidCheck (h : String → String) (db : AuthDB) (token email : String)
    (now : Int) : Bool :=
  match findToken h db token with
  | none => true
  | some r0 =>
    decide (jsToLower r0.email ≠ jsToLower email ∨ r0.expiresAt < now ∨ r0.consumedAt ≠ none)

/-- The spec-side "identifier of the user found or created for the
stored email": the id of the existing user with that email, or the id
the store assigns to the newly created user. -/
def resolveUserId (db : AuthDB) (em uid : String) : String :=
  match db.users.find? fun u => decide (u.email = em) with
  | some u => u.id
  | none => uid

/-- C4: `verifyMagicLink` (with the user step succeeding) fails with
the invalid-link error exactly when one of the spec's four conditions
holds — the no-matching-record condition being equivalent to no stored
hash equalling the hash of the presented token — and otherwise succeeds
returning the identifier of the user found or created for the stored
email. -/
theorem verify_error_conditions (h : String → String) (db : AuthDB)
    (token email : String) (now : Int) (uid : String) :
    ((verifyMagicLink h db token email now uid true).1 = .error .invalidLink
        ↔ invalidCheck h db token email now = true) ∧
    (findToken h db token = none ↔ ∀ r ∈ db.tokens, r.tokenHash ≠ h token) ∧
    (invalidCheck h db token email now = false →
      ∃ r0, findToken h db token = some r0 ∧
        (verifyMagicLink h db token email now uid true).1
          = .ok (resolveUserId db r0.email uid)) := by
  refine ⟨?_, ?_, ?_⟩
  · cases hft : findToken h db token with
    | none =>
      constructor
      · intro _
        unfold invalidCheck
        rw [hft]
      · intro _
        unfold verifyMagicLink
        simp only [hft]
    | some r0 =>
      by_cases hcond : jsToLower r0.email ≠ jsToLower email ∨ r0.expiresAt < now ∨
          r0.consumedAt ≠ none
      · constructor
        · intro _
          unfold invalidCheck
          rw [hft]
          exact decide_eq_true hcond
        · intro _
          unfold verifyMagicLink
          simp only [hft]
          rw [if_pos hcond]
      · constructor
        · intro hv
          exfalso
          unfold verifyMagicLink at hv
          simp only [hft] at hv
          rw [if_neg hcond] at hv
          cases hfu : List.find? (fun u => decide (u.email = r0.email))
              (markConsumed db (h token) now).users with
          | some u =>
            simp only [hfu] at hv
            exact Except.noConfusion hv
          | none =>
            simp only [hfu, if_true] at hv
            exact Except.noConfusion hv
        · intro hi
          exfalso
          unfold invalidCheck at hi
          simp only [hft] at hi
          rw [decide_eq_true_eq] at hi
          exact hcond hi
  · unfold findToken
    rw [List.find?_eq_none]
    constructor
    · intro hall r hr
      have := hall r hr
      rw [decide_eq_true_eq] at this
      exact this
    · intro hall r hr
      rw [decide_eq_true_eq]
      exact hall r hr
  · intro hi
    cases hft : findToken h db token with
    | none =>
      exfalso
      unfold invalidCheck at hi
      simp only [hft] at hi
      exact Bool.noConfusion hi
    | some r0 =>
      have hcond : ¬(jsToLower r0.email ≠ jsToLower email ∨ r0.expiresAt < now ∨
          r0.consumedAt ≠ none) := by
        unfold invalidCheck at hi
        simp only [hft] at hi
        rw [decide_eq_false_iff_not] at hi
        exact hi
      refine ⟨r0, rfl, ?_⟩
      unfold verifyMagicLink
      simp only [hft]
      rw [if_neg hcond]
      unfold resolveUserId
      cases hfu : List.find? (fun u => decide (u.email = r0.email)) db.users with
      | some u =>
        have hfu2 : List.find? (fun u => decide (u.email = r0.email))
            (markConsumed db (h token) now).users = some u := hfu
        simp only [hfu2]
      | none =>
        have hfu2 : List.find? (fun u => decide (u.email = r0.email))
            (markConsumed db (h token) now).users = none := hfu
        simp only [hfu2, if_true]

/-- An auth store with one fresh token (hash "H#") and its user. -/
def c4db : AuthDB := ⟨[⟨"a@b.c", "H#", 0, 900000, none, 0⟩], [⟨"u1", "a@b.c"⟩]⟩

/-- C4 witness: a concrete verify succeeds with the mixed-case email
and returns the existing user's id; the same token after expiry fails. -/
theorem c4_witness :
    (verifyMagicLink (fun s => s ++ "#") c4db "H" "A@B.C" 10 "u9" true).1 = .ok "u1" ∧
    (verifyMagicLink (fun s => s ++ "#") c4db "H" "A@B.C" 9999999 "u9" true).1
      = .error .invalidLink := by
  constructor
  · obtain ⟨r0, hr, hres⟩ :=
      (verify_error_conditions (fun s => s ++ "#") c4db "H" "A@B.C" 10 "u9").2.2 (by decide)
    rw [hres]
    rw [show r0 = ⟨"a@b.c", "H#", 0, 900000, none, 0⟩ from by
      rw [show findToken (fun s => s ++ "#") c4db "H"
        = some ⟨"a@b.c", "H#", 0, 900000, none, 0⟩ from by decide] at hr
      injection hr.symm]
    rfl
  · exact (verify_error_conditions (fun s => s ++ "#") c4db "H" "A@B.C" 9999999 "u9").1.mpr
      (by decide)

/- ===== C3: consume marking and user resolution ===== -/

/-- Marking the found record consumed updates exactly that record. -/
theorem findToken_markConsumed_self (h : String → String) (db : AuthDB)
    (token : String) (now : Int) (r0 : MagicLinkToken)
    (hf : findToken h db token = some r0) :
    findToken h (markConsumed db (h token) now) token
      = some { r0 with consumedAt := some now } := by
  have hr0hash : r0.tokenHash = h token := by
    unfold findToken at hf
    have h2 := List.find?_some hf
    rw [decide_eq_true_eq] at h2
    exact h2
  unfold markConsumed findToken
  rw [find?_map_of_pred_eq _ _ (hash_preserved_consume (h token) now h token)]
  unfold findToken at hf
  rw [hf]
  simp only [Option.map_some']
  rw [if_pos hr0hash]

/-- An auth store with one fresh token and no users. -/
def c3db : AuthDB := ⟨[⟨"a@b.c", "H", 0, 900000, none, 0⟩], []⟩

/-- C3 (counterexample): with a valid token and the user-create store
operation failing, `verifyMagicLink` raises the store error *and* the
token is left marked consumed — the consume update and the user
find-or-create are not one atomic unit of work, so a failed user
resolution does leave the token consumed. -/
theorem c3_counterexample :
    (verifyMagicLink (fun s => s) c3db "H" "a@b.c" 10 "u1" false).1 = .error .dbError ∧
    ((verifyMagicLink (fun s => s) c3db "H" "a@b.c" 10 "u1" false).2.tokens.map
      MagicLinkToken.consumedAt) = [some 10] := by
  constructor <;> rfl

/-- C3 (amended): the consume marking and the user find-or-create run
sequentially with no transaction.  In this sequential embedding a
successful verification leaves the token consumed, so a second
verification with the same raw token always fails (two sequential
attempts can never both succeed); but when the user step fails after
the consume update, the call errors *and* the token remains consumed. -/
theorem verify_consume_not_atomic :
    (∀ (h : String → String) (db : AuthDB) (token email : String) (now : Int)
        (uid : String) (ok : Bool) (u : String) (post : AuthDB),
      verifyMagicLink h db token email now uid ok = (.ok u, post) →
      ∀ (email2 : String) (now2 : Int) (uid2 : String) (ok2 : Bool),
        (verifyMagicLink h post token email2 now2 uid2 ok2).1 = .error .invalidLink) ∧
    (∀ (h : String → String) (db : AuthDB) (token email : String) (now : Int)
        (uid : String) (r0 : MagicLinkToken),
      findToken h db token = some r0 →
      ¬(jsToLower r0.email ≠ jsToLower email ∨ r0.expiresAt < now ∨ r0.consumedAt ≠ none) →
      db.users.find? (fun u => decide (u.email = r0.email)) = none →
      (verifyMagicLink h db token email now uid false).1 = .error .dbError ∧
      findToken h (verifyMagicLink h db token email now uid false).2 token
        = some { r0 with consumedAt := some now }) := by
  constructor
  · intro h db token email now uid ok u post hsucc email2 now2 uid2 ok2
    cases hft : findToken h db token with
    | none =>
      exfalso
      unfold verifyMagicLink at hsucc
      simp only [hft] at hsucc
      have h1 := congrArg Prod.fst hsucc
      exact Except.noConfusion h1
    | some r1 =>
      unfold verifyMagicLink at hsucc
      simp only [hft] at hsucc
      by_cases hcond : jsToLower r1.email ≠ jsToLower email ∨ r1.expiresAt < now ∨
          r1.consumedAt ≠ none
      · exfalso
        rw [if_pos hcond] at hsucc
        exact Except.noConfusion (congrArg Prod.fst hsucc)
      · rw [if_neg hcond] at hsucc
        have hpost : findToken h post token = some { r1 with consumedAt := some now } := by
          have hmark := findToken_markConsumed_self h db token now r1 hft
          cases hfu : List.find? (fun u2 => decide (u2.email = r1.email))
              (markConsumed db (h token) now).users with
          | some u2 =>
            simp only [hfu] at hsucc
            have h2 := congrArg Prod.snd hsucc
            dsimp only at h2
            subst h2
            exact hmark
          | none =>
            simp only [hfu] at hsucc
            cases ok with
            | false =>
              exfalso
              rw [if_neg (by simp)] at hsucc
              have h1 := congrArg Prod.fst hsucc
              dsimp only at h1
              exact Except.noConfusion h1
            | true =>
              rw [if_pos rfl] at hsucc
              have h2 := congrArg Prod.snd hsucc
              dsimp only at h2
              subst h2
              unfold findToken
              unfold findToken at hmark
              exact hmark
        unfold verifyMagicLink
        simp only [hpost]
        rw [if_pos (Or.inr (Or.inr (show ({ r1 with consumedAt := some now }
          : MagicLinkToken).consumedAt ≠ none by simp)))]
  · intro h db token email now uid r0 hft hcond hfu
    have hfu2 : List.find? (fun u => decide (u.email = r0.email))
        (markConsumed db (h token) now).users = none := hfu
    constructor
    · unfold verifyMagicLink
      simp only [hft]
      rw [if_neg hcond]
      simp only [hfu2]
      rw [if_neg (by simp)]
    · unfold verifyMagicLink
      simp only [hft]
      rw [if_neg hcond]
      simp only [hfu2]
      rw [if_neg (by simp)]
      exact findToken_markConsumed_self h db token now r0 hft

/-- The C3 witness store: one fresh token, no users. -/
def c3wdb : AuthDB := ⟨[⟨"a@b.c", "H", 0, 900000, none, 0⟩], []⟩

/-- C3 witness: a concrete successful verification whose replay fails,
and a concrete failed user step yielding the store error. -/
theorem c3_witness :
    ((verifyMagicLink (fun s => s)
        ((verifyMagicLink (fun s => s) c3wdb "H" "a@b.c" 10 "u1" true).2)
        "H" "a@b.c" 20 "u2" true).1 = .error .invalidLink) ∧
    ((verifyMagicLink (fun s => s) c3wdb "H" "a@b.c" 10 "u1" false).1
        = .error .dbError) := by
  constructor
  · exact verify_consume_not_atomic.1 (fun s => s) c3wdb "H" "a@b.c" 10 "u1" true "u1"
      ((verifyMagicLink (fun s => s) c3wdb "H" "a@b.c" 10 "u1" true).2)
      (by rfl) "a@b.c" 20 "u2" true
  · exact (verify_consume_not_atomic.2 (fun s => s) c3wdb "H" "a@b.c" 10 "u1"
      ⟨"a@b.c", "H", 0, 900000, none, 0⟩ (by decide) (by decide) (by decide)).1

/- ===== C5: per-day series completeness ===== -/

/-- The loop guard compares timestamps; with an end-of-day endpoint it
is the comparison of day numbers. -/
theorem le_iff_dayOf_le (current endDate : Nat)
    (he : endDate % msPerDay = msPerDay - 1) :
    (current ≤ endDate ↔ dayOf current ≤ dayOf endDate) := by
  unfold dayOf msPerDay at *
  omega

/-- Advancing one day advances the day number by one. -/
theorem dayOf_add_msPerDay (t : Nat) : dayOf (t + msPerDay) = dayOf t + 1 := by
  unfold dayOf msPerDay
  omega

/-- An end-of-day timestamp sits at the last millisecond of its day. -/
theorem endOfDay_mod (t : Nat) : endOfDay t % msPerDay = msPerDay - 1 := by
  unfold endOfDay dayOf msPerDay
  omega

/-- Normalizing to end of day does not change the day. -/
theorem dayOf_endOfDay (t : Nat) : dayOf (endOfDay t) = dayOf t := by
  unfold endOfDay dayOf msPerDay
  omega

/-- The pushed row carries the current day. -/
theorem fillRow_date (m : List (Nat × Nat × Rat)) (current : Nat) :
    (fillRow m current).date = dayOf current := rfl

/-- A day absent from the map is pushed with zero orders and revenue. -/
theorem fillRow_zero (m : List (Nat × Nat × Rat)) (current : Nat)
    (hnone : seriesMapGet m (dayOf current) = none) :
    (fillRow m current).orders = 0 ∧ (fillRow m current).revenue = 0 := by
  unfold fillRow
  rw [hnone]
  constructor <;> rfl

/-- The loop emits exactly the consecutive day numbers from the day of
`current` to the day of an end-of-day `endDate`, one row each. -/
theorem processLoop_dates (m : List (Nat × Nat × Rat)) :
    ∀ (current endDate : Nat), endDate % msPerDay = msPerDay - 1 →
      (processLoop m current endDate).map SeriesRow.date =
        (List.range (dayOf endDate + 1 - dayOf current)).map (fun i => dayOf current + i) := by
  intro current endDate
  induction current, endDate using processLoop.induct m with
  | case1 current endDate hle hstep =>
    intro he
    have hs2 := hstep he
    rw [processLoop]
    rw [if_pos hle]
    rw [List.map_cons]
    rw [hs2, dayOf_add_msPerDay, fillRow_date]
    have hab : dayOf current ≤ dayOf endDate := (le_iff_dayOf_le current endDate he).mp hle
    rw [show dayOf endDate + 1 - dayOf current = (dayOf endDate - dayOf current) + 1 by omega]
    rw [List.range_succ_eq_map]
    rw [List.map_cons, List.map_map]
    rw [show dayOf endDate + 1 - (dayOf current + 1) = dayOf endDate - dayOf current by omega]
    simp only [Nat.add_zero, Function.comp_def, Nat.succ_eq_add_one]
    congr 1
    apply List.map_congr_left
    intro i _
    omega
  | case2 current endDate hgt =>
    intro he
    have hab : ¬ dayOf current ≤ dayOf endDate := by
      intro hc
      exact hgt ((le_iff_dayOf_le current endDate he).mpr hc)
    rw [processLoop]
    rw [if_neg hgt]
    rw [show dayOf endDate + 1 - dayOf current = 0 by omega]
    rfl

/-- Every emitted row whose day is absent from the map has zero orders
and revenue. -/
theorem processLoop_zero (m : List (Nat × Nat × Rat)) :
    ∀ (current endDate : Nat), ∀ r ∈ processLoop m current endDate,
      seriesMapGet m r.date = none → r.orders = 0 ∧ r.revenue = 0 := by
  intro current endDate
  induction current, endDate using processLoop.induct m with
  | case1 current endDate hle ih =>
    intro r hr hnone
    rw [processLoop, if_pos hle] at hr
    cases List.mem_cons.mp hr with
    | inl heq =>
      subst heq
      rw [fillRow_date] at hnone
      exact fillRow_zero m current hnone
    | inr hmem => exact ih r hmem hnone
  | case2 current endDate hgt =>
    intro r hr hnone
    rw [processLoop, if_neg hgt] at hr
    cases hr

/-- The day map built from the grouped rows lacks a day exactly when no
grouped row carries it. -/
theorem seriesMapGet_none_iff (rows : List SeriesRow) (d : Nat) :
    seriesMapGet (rows.map fun r => (r.date, r.orders, r.revenue)) d = none ↔
      ∀ r ∈ rows, r.date ≠ d := by
  unfold seriesMapGet
  rw [Option.map_eq_none']
  rw [List.find?_eq_none]
  constructor
  · intro hall r hrow
    have h2 := hall (r.date, r.orders, r.revenue)
      (by rw [List.mem_reverse]; exact List.mem_map_of_mem _ hrow)
    simpa using h2
  · intro hall e he
    rw [List.mem_reverse] at he
    obtain ⟨r, hrow, heq⟩ := List.mem_map.mp he
    subst heq
    simpa using hall r hrow

/-- Every grouped series row comes from at least one order on its day. -/
theorem mem_seriesOf (l : List Order) (row : SeriesRow) (h : row ∈ seriesOf l) :
    ∃ o ∈ l, dayOf o.created_at = row.date := by
  unfold seriesOf at h
  obtain ⟨d, hd, heq⟩ := List.mem_map.mp h
  have hdate : row.date = d := by rw [← heq]
  unfold groupDays at hd
  rw [(List.perm_insertionSort _ _).mem_iff] at hd
  rw [List.mem_dedup] at hd
  obtain ⟨o, ho, hod⟩ := List.mem_map.mp hd
  exact ⟨o, ho, by rw [hod, hdate]⟩

/-- C5 (amended): the series produced by `getBusinessData` (the grouped
SQL rows passed through `processSeriesData`) contains exactly one entry
per calendar day of the inclusive range — its dates are precisely the
consecutive days from the day of `fromDate` to the day of `toDate` —
and every day with no matching order in the store appears with
orders = 0 and revenue = 0.  The dashboard route's own series does not
have this property (see the counterexample). -/
theorem getBusinessSeries_complete (fromDate toDate : Nat) (t : String) (s : Store) :
    ((getBusinessSeries fromDate toDate t s).map SeriesRow.date =
        (List.range (dayOf toDate + 1 - dayOf fromDate)).map (fun i => dayOf fromDate + i)) ∧
    (∀ r ∈ getBusinessSeries fromDate toDate t s,
      (∀ o ∈ s.orders, o.tenant_id = t → fromDate ≤ o.created_at →
        o.created_at ≤ endOfDay toDate → dayOf o.created_at ≠ r.date) →
      r.orders = 0 ∧ r.revenue = 0) := by
  constructor
  · unfold getBusinessSeries processSeriesData
    rw [processLoop_dates _ fromDate (endOfDay toDate) (endOfDay_mod toDate)]
    rw [dayOf_endOfDay]
  · intro r hr hno
    unfold getBusinessSeries processSeriesData at hr
    apply processLoop_zero _ _ _ r hr
    rw [seriesMapGet_none_iff]
    intro row hrow heq
    obtain ⟨o, ho, heq2⟩ := mem_seriesOf _ row hrow
    unfold ordersInRange at ho
    have hm := List.mem_filter.mp ho
    have hm2 := hm.2
    rw [decide_eq_true_eq] at hm2
    exact hno o hm.1 hm2.1 hm2.2.1 hm2.2.2 (by rw [heq2, heq])

/-- One order on day 1 for tenant "t"; the queried range covers days
0..2. -/
def c5store : Store := ⟨[⟨"t", "1", none, 10, none, 86400000⟩], [], []⟩

/-- C5 (counterexample): the dashboard loader's series
(`dashboard._index.tsx`) has no gap filling — the three-day range with
one order on day 1 yields one entry, not three, so the claim fails for
that cited per-day series output. -/
theorem c5_counterexample :
    (dashSeries "t" 0 (endOfDay (2 * msPerDay)) c5store).length = 1 ∧
    (dashSeries "t" 0 (endOfDay (2 * msPerDay)) c5store).map SeriesRow.date = [1] := by
  constructor <;> with_unfolding_all decide

/-- C5 witness: on the concrete store the processed series covers days
0, 1, 2 and its day-0 row is zero-filled. -/
theorem c5_witness :
    ((getBusinessSeries 0 (2 * msPerDay) "t" c5store).map SeriesRow.date = [0, 1, 2]) ∧
    (∃ r ∈ getBusinessSeries 0 (2 * msPerDay) "t" c5store,
      r.date = 0 ∧ r.orders = 0 ∧ r.revenue = 0) := by
  have hdates := (getBusinessSeries_complete 0 (2 * msPerDay) "t" c5store).1
  have hdates2 : (getBusinessSeries 0 (2 * msPerDay) "t" c5store).map SeriesRow.date
      = [0, 1, 2] := by
    rw [hdates]
    decide
  constructor
  · exact hdates2
  · have h0 : (0 : Nat) ∈ (getBusinessSeries 0 (2 * msPerDay) "t" c5store).map
        SeriesRow.date := by
      rw [hdates2]
      decide
    obtain ⟨r, hr, hrd⟩ := List.mem_map.mp h0
    refine ⟨r, hr, hrd, ?_⟩
    apply (getBusinessSeries_complete 0 (2 * msPerDay) "t" c5store).2 r hr
    intro o ho htid h1 h2
    rw [hrd]
    have : o = ⟨"t", "1", none, 10, none, 86400000⟩ := by
      cases List.mem_singleton.mp ho
      rfl
    subst this
    decide
